import Mathlib

/-!
Verification development for the knightwatch script monitor (src/server.py).

The embedding below translates the Python source into Lean:

* Directories are modelled as lists of path components from the filesystem
  root (POSIX convention: `[]` is `/`, `["home","user"]` is `/home/user`);
  `os.path.dirname` drops the last component.
* The host filesystem state that the resolver consults (`os.path.exists`
  of `scrapy.cfg`, and the `os.walk` + regex scan of spider files, which
  reads host file contents) is abstracted into an `FS` record of two
  query functions; the control flow around the queries is translated
  from `find_scrapy_project_root` / `find_spider_file_by_name` /
  `get_script_path` in src/server.py.
* `datetime.now()` values are tick timestamps modelled as `Nat`;
  `datetime` subtraction is integer subtraction on `Int`.
* Python dicts keyed by pid (`script_status`) are association lists with
  insertion order preserved, matching Python dict iteration order.
-/

/-- Host filesystem abstraction used by the resolver: `hasCfg d` is the
`os.path.exists(os.path.join(d, "scrapy.cfg"))` query, and
`findSpider root name` is the result of `find_spider_file_by_name`
(the `os.walk` + regex scan over host file contents, returned as absolute
path components), which is host state outside the program text. -/
structure FS where
  hasCfg : List String → Bool
  findSpider : List String → String → Option (List String)

/-- Model of `str.endswith`, phrased on character lists. -/
def strEndsWith (s suf : String) : Bool :=
  List.isSuffixOf suf.data s.data

/-- Render absolute path components as a path string (POSIX style). -/
def pathStr (p : List String) : String :=
  "/" ++ String.intercalate "/" p

/-- Model of `os.path.isabs` for the POSIX path convention used throughout
the embedding. -/
def isAbs (s : String) : Bool :=
  List.isPrefixOf "/".data s.data

/-- Model of `os.path.abspath(os.path.join(cwd, arg))` for an absolute
`cwd` given as components (path normalization aside). -/
def joinPath (cwd : List String) (arg : String) : String :=
  pathStr cwd ++ "/" ++ arg

/-- Upward walk of `find_scrapy_project_root`, translated to structural
recursion on the REVERSED component list: the Python loop checks the
current directory for `scrapy.cfg`, then moves to `os.path.dirname`
(drop the last component) and returns `None` once the parent equals the
current directory (the filesystem root, `[]` here). Walking the reversed
list one component at a time is exactly that loop. -/
def findRootAux (fs : FS) : List String → Option (List String)
  | [] => if fs.hasCfg [] then some [] else none
  | c :: rest =>
    if fs.hasCfg (List.reverse (c :: rest)) then some (List.reverse (c :: rest))
    else findRootAux fs rest

/-- Translation of `find_scrapy_project_root` (src/server.py lines 36-45):
locate the Scrapy project root by searching for `scrapy.cfg` upward from
`start_dir`. -/
def find_scrapy_project_root (fs : FS) (start_dir : List String) : Option (List String) :=
  findRootAux fs start_dir.reverse

/-- Body of the Scrapy branch of `get_script_path` after the spider name
has been extracted (src/server.py lines 82-91): find the project root,
then the spider file; each failure case returns a descriptive identity
string rather than an error. -/
def scrapyResolve (fs : FS) (cwd : List String) (spider_name : String) : Option String :=
  match find_scrapy_project_root fs cwd with
  | none => some ("Spider: " ++ spider_name ++ " (Project root not found)")
  | some project_root =>
    match fs.findSpider project_root spider_name with
    | some spider_file => some (pathStr spider_file)
    | none => some ("Not found in " ++ pathStr project_root)

/-- Rule 3 of the resolver (src/server.py line 100-101): if the command
line has more than one token, the first token ends in `python` and the
second ends in `.py`, resolve the second token relative to `cwd`. -/
def implicitScriptRule (cwd : List String) : List String → Option String
  | c0 :: c1 :: _ =>
    if strEndsWith c0 "python" && strEndsWith c1 ".py" then some (joinPath cwd c1) else none
  | _ => none

/-- Translation of `get_script_path` (src/server.py lines 71-111).
The Scrapy branch fires when `-m`, `scrapy` and `crawl` all occur in the
command line; `cmdline.index("crawl")` is `List.indexOf`, and the
`IndexError` raised by `cmdline[crawl_idx + 1]` when no token follows the
first `crawl` is caught and turned into `None` (the `except` clause at
lines 92-94). Otherwise the direct-file rule returns the first absolute
`.py` token (`os.path.abspath` of an absolute token is the token itself,
normalization aside), then the implicit-script rule, then the interactive
fallback, then `None`. -/
def get_script_path (fs : FS) (cmdline : List String) (cwd : List String) : Option String :=
  if "-m" ∈ cmdline ∧ "scrapy" ∈ cmdline ∧ "crawl" ∈ cmdline then
    match cmdline.get? (cmdline.indexOf "crawl" + 1) with
    | none => none
    | some spider_name => scrapyResolve fs cwd spider_name
  else
    match cmdline.find? (fun a => strEndsWith a ".py" && isAbs a) with
    | some arg => some arg
    | none =>
      match implicitScriptRule cwd cmdline with
      | some r => some r
      | none =>
        if "-i" ∈ cmdline ∨ cmdline.any (fun a => strEndsWith a ".py") = false then
          some "<interactive>"
        else none

/-- Filesystem with no `scrapy.cfg` anywhere and no spider files. -/
def fsEmpty : FS :=
  ⟨fun _ => false, fun _ _ => none⟩

/-- The claim reading of a "resolvable path token": a command-line token
that the resolver's direct-file rule (absolute token ending in `.py`) or
implicit-script rule (interpreter first token plus `.py` second token)
actually resolves. -/
def resolvablePathToken (cwd : List String) (cmdline : List String) : Prop :=
  (∃ a ∈ cmdline, strEndsWith a ".py" = true ∧ isAbs a = true) ∨
    (implicitScriptRule cwd cmdline).isSome = true

instance (cwd cmdline) : Decidable (resolvablePathToken cwd cmdline) := by
  unfold resolvablePathToken; infer_instance

/-- A `TrackedScript` value of the state table `script_status`
(src/server.py lines 183-187): the script path and the tick at which the
Start was recorded (`datetime.now()` as a tick number). -/
structure Entry where
  script_path : String
  start_time : Nat
deriving DecidableEq

/-- One element of `running_scripts` (src/server.py lines 169-175):
a scanned process with a resolved, non-interactive script path. -/
structure ScriptInfo where
  pid : Nat
  script_path : String
deriving DecidableEq

/-- The `script_status` table: a pid-keyed association list in insertion
order, the model of the Python dict. -/
abbrev MonState := List (Nat × Entry)

inductive EType where
  | start
  | stop
deriving DecidableEq

/-- A Start or Stop transition produced by the state diff; `time` is the
tick's `datetime.now()` and `duration` is `now - start_time` for Stop
events (datetime subtraction modelled on `Int`), `none` for Starts. -/
structure Event where
  etype : EType
  pid : Nat
  script_path : String
  time : Nat
  duration : Option Int
deriving DecidableEq

/-- Lookup of `script_status[pid]` / `pid in script_status`. -/
def lookupPid (p : Nat) : MonState → Option Entry
  | [] => none
  | (q, e) :: rest => if q = p then some e else lookupPid p rest

/-- The "Handle started scripts" loop (src/server.py lines 181-201): for
each scanned script whose pid is not yet a key of `script_status`, insert
`{script_path, start_time := now}` and emit a Start event; scripts whose
pid is already tracked are skipped. -/
def processStarts (now : Nat) : List ScriptInfo → MonState → MonState × List Event
  | [], st => (st, [])
  | s :: rest, st =>
    match lookupPid s.pid st with
    | some _ => processStarts now rest st
    | none =>
      let r := processStarts now rest (st ++ [(s.pid, ⟨s.script_path, now⟩)])
      (r.1, ⟨EType.start, s.pid, s.script_path, now, none⟩ :: r.2)

/-- The "Handle stopped scripts" loop (src/server.py lines 203-216): for
each tracked pid absent from `current_pids`, emit a Stop event carrying
`duration = now - start_time` and delete the entry. -/
def processStops (now : Nat) (cur : List Nat) : MonState → MonState × List Event
  | [] => ([], [])
  | (q, e) :: rest =>
    let r := processStops now cur rest
    if q ∈ cur then ((q, e) :: r.1, r.2)
    else (r.1, ⟨EType.stop, q, e.script_path, now, some ((now : Int) - (e.start_time : Int))⟩ :: r.2)

structure TickResult where
  state : MonState
  starts : List Event
  stops : List Event
deriving DecidableEq

/-- One state-diff step of the monitor loop (src/server.py lines 181-216):
process starts against the snapshot, then stops against
`current_pids = {s["pid"] for s in running_scripts}`. -/
def tick (now : Nat) (snap : List ScriptInfo) (st : MonState) : TickResult :=
  let r1 := processStarts now snap st
  let r2 := processStops now (snap.map ScriptInfo.pid) r1.1
  ⟨r2.1, r1.2, r2.2⟩

/-- Result of `check_system_resources` (src/server.py lines 114-145): on
success a populated metrics record, on any failure the empty dict `{}`
returned by the `except` clause. -/
inductive Resources where
  | empty
  | ok (ramPercent : Nat) (cpuPercent : Nat) (drives : List (String × Nat))
deriving DecidableEq

/-- Translation of `check_system_resources`: when every underlying
psutil metric source fails (`allFail`), the `try` body raises and the
`except` clause returns the empty dict; otherwise the populated record. -/
def check_system_resources (allFail : Bool) (ram cpu : Nat) (drives : List (String × Nat)) : Resources :=
  if allFail then Resources.empty else Resources.ok ram cpu drives

/-- Dict subscript `resources["drives"]` (src/server.py line 189): raises
`KeyError` on the empty dict. -/
def resDrives : Resources → Except String (List (String × Nat))
  | Resources.empty => Except.error "KeyError: drives"
  | Resources.ok _ _ ds => Except.ok ds

/-- Dict subscript `resources["ram"]["percent"]` (src/server.py line 197). -/
def resRam : Resources → Except String Nat
  | Resources.empty => Except.error "KeyError: ram"
  | Resources.ok r _ _ => Except.ok r

/-- Dict subscript `resources["cpu"]["usage_percent"]` (src/server.py line 198). -/
def resCpu : Resources → Except String Nat
  | Resources.empty => Except.error "KeyError: cpu"
  | Resources.ok _ c _ => Except.ok c

/-- Externally visible sink calls made during one tick: the Discord alert
and the database record for a Start, and the same pair for a Stop. -/
inductive Dispatch where
  | alertStart (pid : Nat) (path : String)
  | logStart (pid : Nat) (path : String) (time : Nat)
  | alertStop (pid : Nat) (path : String)
  | logEnd (pid : Nat) (path : String) (time : Nat)
deriving DecidableEq

/-- The per-start block of the monitor body (src/server.py lines 183-201):
before any sink call, the code builds the drives summary by subscripting
`resources["drives"]` and formats the alert text with
`resources["ram"]["percent"]` and `resources["cpu"]["usage_percent"]`;
a `KeyError` here escapes to the loop's critical handler. -/
def startBlock (res : Resources) (now : Nat) (s : ScriptInfo) : Except String (List Dispatch) := do
  let _ ← resDrives res
  let _ ← resRam res
  let _ ← resCpu res
  Except.ok [Dispatch.alertStart s.pid s.script_path, Dispatch.logStart s.pid s.script_path now]

/-- The "Handle started scripts" loop with its sink calls and resource
subscripts (src/server.py lines 181-201), in the exception monad. -/
def runStarts (res : Resources) (now : Nat) : List ScriptInfo → MonState → Except String (MonState × List Dispatch)
  | [], st => Except.ok (st, [])
  | s :: rest, st =>
    match lookupPid s.pid st with
    | some _ => runStarts res now rest st
    | none => do
      let evs ← startBlock res now s
      let r ← runStarts res now rest (st ++ [(s.pid, ⟨s.script_path, now⟩)])
      Except.ok (r.1, evs ++ r.2)

/-- One full monitor tick body with event dispatch (src/server.py lines
181-216): the Start loop runs first and may raise `KeyError` on an empty
resources dict, aborting the tick before the Stop loop; the Stop loop's
alert and database call do not subscript the resources dict
(`json.dumps({})` succeeds), so it never raises here. -/
def monitorTickDispatch (now : Nat) (res : Resources) (snap : List ScriptInfo) (st : MonState) :
    Except String (MonState × List Dispatch) := do
  let r1 ← runStarts res now snap st
  let r2 := processStops now (snap.map ScriptInfo.pid) r1.1
  Except.ok (r2.1, r1.2 ++ r2.2.flatMap (fun ev => [Dispatch.alertStop ev.pid ev.script_path, Dispatch.logEnd ev.pid ev.script_path ev.time]))

/-- Row of the `script_event` table used by `log_script_event`
(src/server.py lines 229-259). -/
structure DBRow where
  event_type : String
  ip : String
  pid : String
  script_path : String
  start_time : Nat
  end_time : Option Nat
  resources_info : String
deriving DecidableEq

/-- Translation of `log_script_event` (src/server.py lines 229-259): a
`start` event INSERTs a new row; an `end` event UPDATEs every existing
row whose `pid` column equals the passed `pid` argument and whose
`event_type` is `'start'`, setting `event_type = 'end'`, `end_time` and
`resources_info`. -/
def log_script_event (event_type localip pidArg path : String) (time : Nat) (resources_info : String)
    (table : List DBRow) : List DBRow :=
  if event_type = "start" then
    table ++ [⟨"start", localip, pidArg, path, time, none, resources_info⟩]
  else if event_type = "end" then
    table.map (fun r =>
      if r.pid = pidArg ∧ r.event_type = "start" then
        { r with event_type := "end", end_time := some time, resources_info := resources_info }
      else r)
  else table

/-- The value the monitor actually passes as the `pid` argument of
`log_script_event` (src/server.py lines 201 and 215): the Python string
form `str(script_status[pid])` of the tracked entry dict, with the
`datetime` rendered as the tick number. -/
def entryRepr (e : Entry) : String :=
  "\x7b\x27script_path\x27: \x27" ++ e.script_path ++ "\x27, \x27start_time\x27: " ++ toString e.start_time ++ "\x7d"

/-- Outcome of one iteration body of `monitor_scripts` as seen by the
`while True` loop (src/server.py lines 161-226): it completes, raises
`KeyboardInterrupt` (the external stop signal), or raises some other
unexpected exception. -/
inductive TickOutcome where
  | normal
  | interrupt
  | raised
deriving DecidableEq

/-- What the loop does after one iteration: how many critical alerts it
sends and how long it sleeps. A normal tick sends no critical alert and
sleeps 4 seconds (line 218); the critical handler sends one alert and
sleeps the 60-second cooldown (lines 223-226). -/
structure LoopAct where
  criticalAlerts : Nat
  sleepSecs : Nat
deriving DecidableEq

/-- The `while True` loop of `monitor_scripts` (src/server.py lines
161-226) driven by a sequence of iteration outcomes: `normal` continues
after a 4-second sleep, `raised` is caught by the `except Exception`
handler (one critical alert, 60-second cooldown, then the loop resumes),
and `interrupt` is caught by `except KeyboardInterrupt` which breaks.
The Bool records whether the loop exited. -/
def monitorLoop : List TickOutcome → List LoopAct × Bool
  | [] => ([], false)
  | TickOutcome.normal :: rest =>
    let r := monitorLoop rest
    (⟨0, 4⟩ :: r.1, r.2)
  | TickOutcome.interrupt :: _ => ([], true)
  | TickOutcome.raised :: rest =>
    let r := monitorLoop rest
    (⟨1, 60⟩ :: r.1, r.2)

deriving instance DecidableEq for Except


/-! Helper lemmas about the pid-keyed association list. -/

theorem lookupPid_append (p : Nat) (st : MonState) (q : Nat) (e : Entry) :
    lookupPid p (st ++ [(q, e)]) =
      match lookupPid p st with
      | some x => some x
      | none => if q = p then some e else none := by
  induction st with
  | nil => simp [lookupPid]
  | cons kv rest ih =>
    obtain ⟨k, v⟩ := kv
    by_cases h : k = p <;> simp [lookupPid, h, ih]

theorem lookupPid_eq_none_iff (p : Nat) (st : MonState) :
    lookupPid p st = none ↔ p ∉ st.map Prod.fst := by
  induction st with
  | nil => simp [lookupPid]
  | cons kv rest ih =>
    obtain ⟨k, v⟩ := kv
    by_cases h : k = p
    · subst h; simp [lookupPid]
    · have h2 : p ≠ k := fun hh => h hh.symm
      simp [lookupPid, h, ih, h2]

theorem lookupPid_isSome_iff (p : Nat) (st : MonState) :
    (lookupPid p st).isSome = true ↔ p ∈ st.map Prod.fst := by
  rw [← Decidable.not_iff_not, ← lookupPid_eq_none_iff]
  cases lookupPid p st <;> simp

theorem filter_key_eq_nil (p : Nat) (st : MonState) (h : lookupPid p st = none) :
    st.filter (fun kv => kv.1 == p) = [] := by
  induction st with
  | nil => simp
  | cons kv rest ih =>
    obtain ⟨k, v⟩ := kv
    by_cases hk : k = p
    · simp [lookupPid, hk] at h
    · simp only [lookupPid, if_neg hk] at h
      simp [List.filter_cons, hk, ih h]

theorem filter_key_singleton (p : Nat) (st : MonState) (e : Entry)
    (hnd : (st.map Prod.fst).Nodup) (h : lookupPid p st = some e) :
    st.filter (fun kv => kv.1 == p) = [(p, e)] := by
  induction st with
  | nil => simp [lookupPid] at h
  | cons kv rest ih =>
    obtain ⟨k, v⟩ := kv
    simp only [List.map_cons, List.nodup_cons] at hnd
    by_cases hk : k = p
    · simp only [lookupPid, if_pos hk] at h
      subst hk
      obtain rfl : v = e := Option.some.inj h
      have hrest : lookupPid k rest = none := by
        rw [lookupPid_eq_none_iff]; exact hnd.1
      simp [List.filter_cons, filter_key_eq_nil k rest hrest]
    · simp only [lookupPid, if_neg hk] at h
      simp [List.filter_cons, hk, ih hnd.2 h]

/-! Characterization of the Start loop. -/

theorem ps_lookup (now p : Nat) : ∀ (snap : List ScriptInfo) (st : MonState),
    lookupPid p (processStarts now snap st).1 =
      match lookupPid p st with
      | some e => some e
      | none =>
        match snap.find? (fun s => s.pid == p) with
        | some s => some ⟨s.script_path, now⟩
        | none => none
  | [], st => by cases h : lookupPid p st <;> simp [processStarts, h]
  | s :: rest, st => by
    cases hl : lookupPid s.pid st with
    | some e0 =>
      by_cases hp : s.pid = p
      · subst hp
        simp [processStarts, hl, ps_lookup now s.pid rest st]
      · have hbeq : (s.pid == p) = false := by simp [hp]
        simp [processStarts, hl, ps_lookup now p rest st, List.find?_cons, hbeq]
    | none =>
      by_cases hp : s.pid = p
      · subst hp
        have hap := lookupPid_append s.pid st s.pid (⟨s.script_path, now⟩ : Entry)
        simp only [hl] at hap
        simp [processStarts, hl, ps_lookup now s.pid rest, hap, List.find?_cons]
      · have hbeq : (s.pid == p) = false := by simp [hp]
        have hap := lookupPid_append p st s.pid (⟨s.script_path, now⟩ : Entry)
        simp only [if_neg hp] at hap
        have hap2 : lookupPid p (st ++ [(s.pid, (⟨s.script_path, now⟩ : Entry))]) = lookupPid p st := by
          rw [hap]; cases lookupPid p st <;> rfl
        simp [processStarts, hl, ps_lookup now p rest, hap2, List.find?_cons, hbeq]

theorem ps_count (now p : Nat) : ∀ (snap : List ScriptInfo) (st : MonState),
    (processStarts now snap st).2.countP (fun ev => ev.pid == p) =
      if p ∈ snap.map ScriptInfo.pid ∧ lookupPid p st = none then 1 else 0
  | [], st => by simp [processStarts]
  | s :: rest, st => by
    cases hl : lookupPid s.pid st with
    | some e0 =>
      by_cases hp : s.pid = p
      · subst hp
        simp [processStarts, hl, ps_count now s.pid rest st]
      · simp [processStarts, hl, ps_count now p rest st, hp, Ne.symm hp]
    | none =>
      have hap := lookupPid_append p st s.pid (⟨s.script_path, now⟩ : Entry)
      by_cases hp : s.pid = p
      · subst hp
        simp only [hl, if_pos rfl] at hap
        simp [processStarts, hl, List.countP_cons, ps_count now s.pid rest _, hap]
      · simp only [if_neg hp] at hap
        have hap2 : lookupPid p (st ++ [(s.pid, (⟨s.script_path, now⟩ : Entry))]) = lookupPid p st := by
          rw [hap]; cases lookupPid p st <;> rfl
        simp [processStarts, hl, List.countP_cons, ps_count now p rest _, hap2, hp, Ne.symm hp]

theorem ps_filter_keys (now p : Nat) : ∀ (snap : List ScriptInfo) (st : MonState),
    p ∉ snap.map ScriptInfo.pid →
      (processStarts now snap st).1.filter (fun kv => kv.1 == p) = st.filter (fun kv => kv.1 == p)
  | [], st, _ => by simp [processStarts]
  | s :: rest, st, h => by
    have hp : s.pid ≠ p := by
      intro hpe; exact h (by simp [hpe])
    have hrest : p ∉ rest.map ScriptInfo.pid := by
      intro hmem; exact h (by simp [hmem])
    cases hl : lookupPid s.pid st with
    | some e0 => simp [processStarts, hl, ps_filter_keys now p rest st hrest]
    | none =>
      have : ((st ++ [(s.pid, (⟨s.script_path, now⟩ : Entry))]).filter (fun kv => kv.1 == p)) =
          st.filter (fun kv => kv.1 == p) := by
        simp [List.filter_append, hp]
      simp [processStarts, hl, ps_filter_keys now p rest _ hrest, this]

theorem ps_keys_nodup (now : Nat) : ∀ (snap : List ScriptInfo) (st : MonState),
    (st.map Prod.fst).Nodup → ((processStarts now snap st).1.map Prod.fst).Nodup
  | [], st, h => by simpa [processStarts] using h
  | s :: rest, st, h => by
    cases hl : lookupPid s.pid st with
    | some e0 => simpa [processStarts, hl] using ps_keys_nodup now rest st h
    | none =>
      have hnotin : s.pid ∉ st.map Prod.fst := (lookupPid_eq_none_iff s.pid st).mp hl
      have hnd : ((st ++ [(s.pid, (⟨s.script_path, now⟩ : Entry))]).map Prod.fst).Nodup := by
        simp [List.nodup_append, h, hnotin]
      simpa [processStarts, hl] using ps_keys_nodup now rest _ hnd

/-! Characterization of the Stop loop. -/

theorem pstops_state (now : Nat) (cur : List Nat) : ∀ st : MonState,
    (processStops now cur st).1 = st.filter (fun kv => decide (kv.1 ∈ cur))
  | [] => by simp [processStops]
  | (q, e) :: rest => by
    by_cases hq : q ∈ cur <;>
      simp [processStops, hq, List.filter_cons, pstops_state now cur rest]

theorem pstops_filter (now : Nat) (cur : List Nat) (p : Nat) : ∀ st : MonState,
    (processStops now cur st).2.filter (fun ev => ev.pid == p) =
      if p ∈ cur then [] else
        (st.filter (fun kv => kv.1 == p)).map
          (fun kv => ⟨EType.stop, kv.1, kv.2.script_path, now, some ((now : Int) - (kv.2.start_time : Int))⟩)
  | [] => by by_cases hp : p ∈ cur <;> simp [processStops, hp]
  | (q, e) :: rest => by
    by_cases hq : q ∈ cur
    · by_cases hp : p ∈ cur
      · simp [processStops, hq, hp, pstops_filter now cur p rest]
      · have hqp : q ≠ p := fun hh => hp (hh ▸ hq)
        simp [processStops, hq, hp, pstops_filter now cur p rest, List.filter_cons, hqp]
    · by_cases hqp : q = p
      · subst hqp
        simp [processStops, hq, pstops_filter now cur q rest, List.filter_cons]
      · simp [processStops, hq, hqp, pstops_filter now cur p rest, List.filter_cons]

theorem lookupPid_filter_mem (p : Nat) (cur : List Nat) (h : p ∈ cur) : ∀ st : MonState,
    lookupPid p (st.filter (fun kv => decide (kv.1 ∈ cur))) = lookupPid p st
  | [] => by simp
  | (k, v) :: rest => by
    by_cases hk : k ∈ cur
    · simp [List.filter_cons, hk, lookupPid, lookupPid_filter_mem p cur h rest]
    · have hkp : k ≠ p := fun hh => hk (hh ▸ h)
      simp [List.filter_cons, hk, lookupPid, hkp, lookupPid_filter_mem p cur h rest]

theorem lookupPid_filter_not_mem (p : Nat) (cur : List Nat) (h : p ∉ cur) : ∀ st : MonState,
    lookupPid p (st.filter (fun kv => decide (kv.1 ∈ cur))) = none
  | [] => by simp [lookupPid]
  | (k, v) :: rest => by
    by_cases hk : k ∈ cur
    · have hkp : k ≠ p := fun hh => h (hh ▸ hk)
      simp [List.filter_cons, hk, lookupPid, hkp, lookupPid_filter_not_mem p cur h rest]
    · simp [List.filter_cons, hk, lookupPid, lookupPid_filter_not_mem p cur h rest]

theorem mem_pid_iff_find_isSome (p : Nat) (snap : List ScriptInfo) :
    p ∈ snap.map ScriptInfo.pid ↔ (snap.find? (fun s => s.pid == p)).isSome = true := by
  rw [List.find?_isSome]
  simp [List.mem_map, beq_iff_eq]

theorem tick_state_keys_nodup (now : Nat) (snap : List ScriptInfo) (st : MonState)
    (hnd : (st.map Prod.fst).Nodup) : ((tick now snap st).state.map Prod.fst).Nodup := by
  have h1 := ps_keys_nodup now snap st hnd
  have h2 : (tick now snap st).state =
      (processStarts now snap st).1.filter (fun kv => decide (kv.1 ∈ snap.map ScriptInfo.pid)) :=
    pstops_state now (snap.map ScriptInfo.pid) (processStarts now snap st).1
  rw [h2]
  exact List.Nodup.sublist
    (List.Sublist.map Prod.fst (List.filter_sublist (processStarts now snap st).1)) h1

theorem tick_state_lookup (now p : Nat) (snap : List ScriptInfo) (st : MonState) :
    lookupPid p (tick now snap st).state =
      if p ∈ snap.map ScriptInfo.pid then
        match lookupPid p st with
        | some e => some e
        | none =>
          match snap.find? (fun s => s.pid == p) with
          | some s => some ⟨s.script_path, now⟩
          | none => none
      else none := by
  have h2 : (tick now snap st).state =
      (processStarts now snap st).1.filter (fun kv => decide (kv.1 ∈ snap.map ScriptInfo.pid)) :=
    pstops_state now (snap.map ScriptInfo.pid) (processStarts now snap st).1
  rw [h2]
  by_cases hp : p ∈ snap.map ScriptInfo.pid
  · rw [lookupPid_filter_mem p _ hp, ps_lookup, if_pos hp]
  · rw [lookupPid_filter_not_mem p _ hp, if_neg hp]

/-- C1: in every state-diff step, a pid gets exactly one Start event iff it
is in the snapshot and not yet tracked, exactly one Stop event iff it is
tracked and absent from the snapshot, never both in the same tick; and the
tracked-pid set after the step is exactly the snapshot's pid set (so over
any sequence of scans the Start fires exactly at the first tick a pid
appears and the Stop exactly at the first tick it is absent after having
been present), with key uniqueness preserved. -/
theorem tick_start_stop_exactly_once (now p : Nat) (snap : List ScriptInfo) (st : MonState)
    (hnd : (st.map Prod.fst).Nodup) :
    ((tick now snap st).starts.countP (fun ev => ev.pid == p) =
        if p ∈ snap.map ScriptInfo.pid ∧ lookupPid p st = none then 1 else 0) ∧
    ((tick now snap st).stops.countP (fun ev => ev.pid == p) =
        if p ∉ snap.map ScriptInfo.pid ∧ (lookupPid p st).isSome = true then 1 else 0) ∧
    ¬ ((tick now snap st).starts.countP (fun ev => ev.pid == p) = 1 ∧
        (tick now snap st).stops.countP (fun ev => ev.pid == p) = 1) ∧
    ((lookupPid p (tick now snap st).state).isSome = true ↔ p ∈ snap.map ScriptInfo.pid) ∧
    ((tick now snap st).state.map Prod.fst).Nodup := by
  have hstarts : (tick now snap st).starts.countP (fun ev => ev.pid == p) =
      if p ∈ snap.map ScriptInfo.pid ∧ lookupPid p st = none then 1 else 0 :=
    ps_count now p snap st
  have hstops : (tick now snap st).stops.countP (fun ev => ev.pid == p) =
      if p ∉ snap.map ScriptInfo.pid ∧ (lookupPid p st).isSome = true then 1 else 0 := by
    have hrw : (tick now snap st).stops =
        (processStops now (snap.map ScriptInfo.pid) (processStarts now snap st).1).2 := rfl
    rw [hrw, List.countP_eq_length_filter, pstops_filter]
    by_cases hp : p ∈ snap.map ScriptInfo.pid
    · simp [hp]
    · rw [if_neg hp, ps_filter_keys now p snap st hp]
      cases hl : lookupPid p st with
      | none => simp [hp, filter_key_eq_nil p st hl, hl]
      | some e => simp [hp, filter_key_singleton p st e hnd hl, hl]
  refine ⟨hstarts, hstops, ?_, ?_, tick_state_keys_nodup now snap st hnd⟩
  · rintro ⟨h1, h2⟩
    rw [hstarts] at h1
    rw [hstops] at h2
    by_cases hp : p ∈ snap.map ScriptInfo.pid
    · simp [hp] at h2
    · simp [hp] at h1
  · rw [tick_state_lookup]
    by_cases hp : p ∈ snap.map ScriptInfo.pid
    · simp only [if_pos hp]
      cases hl : lookupPid p st with
      | some e => simp [hp]
      | none =>
        have hfind : (snap.find? (fun s => s.pid == p)).isSome = true :=
          (mem_pid_iff_find_isSome p snap).mp hp
        cases hf : snap.find? (fun s => s.pid == p) with
        | none => rw [hf] at hfind; simp at hfind
        | some s => simp [hp, hf]
    · simp [hp]

/-- C1 witness: the diff step at a concrete state and snapshot. -/
theorem tick_start_stop_exactly_once_witness :
    (([((5 : Nat), (⟨"/a.py", 0⟩ : Entry))].map Prod.fst).Nodup) ∧
    (((tick 3 [⟨7, "/b.py"⟩] [(5, ⟨"/a.py", 0⟩)]).starts.countP (fun ev => ev.pid == 7) =
        if 7 ∈ [ScriptInfo.mk 7 "/b.py"].map ScriptInfo.pid ∧ lookupPid 7 [(5, ⟨"/a.py", 0⟩)] = none then 1 else 0) ∧
      ((tick 3 [⟨7, "/b.py"⟩] [(5, ⟨"/a.py", 0⟩)]).stops.countP (fun ev => ev.pid == 7) =
        if 7 ∉ [ScriptInfo.mk 7 "/b.py"].map ScriptInfo.pid ∧ (lookupPid 7 [(5, ⟨"/a.py", 0⟩)]).isSome = true then 1 else 0) ∧
      ¬ ((tick 3 [⟨7, "/b.py"⟩] [(5, ⟨"/a.py", 0⟩)]).starts.countP (fun ev => ev.pid == 7) = 1 ∧
        (tick 3 [⟨7, "/b.py"⟩] [(5, ⟨"/a.py", 0⟩)]).stops.countP (fun ev => ev.pid == 7) = 1) ∧
      ((lookupPid 7 (tick 3 [⟨7, "/b.py"⟩] [(5, ⟨"/a.py", 0⟩)]).state).isSome = true ↔
        7 ∈ [ScriptInfo.mk 7 "/b.py"].map ScriptInfo.pid) ∧
      ((tick 3 [⟨7, "/b.py"⟩] [(5, ⟨"/a.py", 0⟩)]).state.map Prod.fst).Nodup) :=
  ⟨by decide, tick_start_stop_exactly_once 3 7 [⟨7, "/b.py"⟩] [(5, ⟨"/a.py", 0⟩)] (by decide)⟩

/-- C6: a pid present in the tracked state and again in the next snapshot
generates no Start and no Stop event in that diff step, and its tracked
entry (script path and start time) is left unchanged. -/
theorem steady_pid_no_event_frame (now p : Nat) (snap : List ScriptInfo) (st : MonState)
    (e : Entry) (hin : lookupPid p st = some e) (hmem : p ∈ snap.map ScriptInfo.pid) :
    (tick now snap st).starts.countP (fun ev => ev.pid == p) = 0 ∧
    (tick now snap st).stops.countP (fun ev => ev.pid == p) = 0 ∧
    lookupPid p (tick now snap st).state = some e := by
  refine ⟨?_, ?_, ?_⟩
  · have h : (tick now snap st).starts.countP (fun ev => ev.pid == p) =
        if p ∈ snap.map ScriptInfo.pid ∧ lookupPid p st = none then 1 else 0 :=
      ps_count now p snap st
    simpa [hin] using h
  · have hrw : (tick now snap st).stops =
        (processStops now (snap.map ScriptInfo.pid) (processStarts now snap st).1).2 := rfl
    rw [hrw, List.countP_eq_length_filter, pstops_filter, if_pos hmem]
    rfl
  · rw [tick_state_lookup, if_pos hmem, hin]

/-- C6 witness: a pid tracked since tick 1 and present again at tick 2. -/
theorem steady_pid_no_event_frame_witness :
    lookupPid 9 [(9, (⟨"/s.py", 1⟩ : Entry))] = some (⟨"/s.py", 1⟩ : Entry) ∧
    (9 : Nat) ∈ [ScriptInfo.mk 9 "/s.py"].map ScriptInfo.pid ∧
    ((tick 2 [⟨9, "/s.py"⟩] [(9, ⟨"/s.py", 1⟩)]).starts.countP (fun ev => ev.pid == 9) = 0 ∧
      (tick 2 [⟨9, "/s.py"⟩] [(9, ⟨"/s.py", 1⟩)]).stops.countP (fun ev => ev.pid == 9) = 0 ∧
      lookupPid 9 (tick 2 [⟨9, "/s.py"⟩] [(9, ⟨"/s.py", 1⟩)]).state = some (⟨"/s.py", 1⟩ : Entry)) :=
  ⟨by decide, by decide,
    steady_pid_no_event_frame 2 9 [⟨9, "/s.py"⟩] [(9, ⟨"/s.py", 1⟩)] ⟨"/s.py", 1⟩ (by decide) (by decide)⟩

/-- C5: a pid first observed at tick `t1` (recording its Start) and absent
from the snapshot at tick `t2` receives exactly one Stop event at `t2`,
whose duration is `t2 - t1`, the wall-clock gap between the recorded start
time and the tick where it vanished, and that duration is nonnegative. -/
theorem stop_duration_matches_start_gap (t1 t2 p : Nat) (snap1 snap2 : List ScriptInfo)
    (st0 : MonState) (s0 : ScriptInfo)
    (hnd : (st0.map Prod.fst).Nodup)
    (habs0 : lookupPid p st0 = none)
    (hfind : snap1.find? (fun s => s.pid == p) = some s0)
    (hgone : p ∉ snap2.map ScriptInfo.pid)
    (hle : t1 ≤ t2) :
    (tick t2 snap2 (tick t1 snap1 st0).state).stops.filter (fun ev => ev.pid == p) =
      [⟨EType.stop, p, s0.script_path, t2, some ((t2 : Int) - (t1 : Int))⟩] ∧
    (tick t2 snap2 (tick t1 snap1 st0).state).stops.countP (fun ev => ev.pid == p) = 1 ∧
    0 ≤ (t2 : Int) - (t1 : Int) := by
  have hmem1 : p ∈ snap1.map ScriptInfo.pid := by
    rw [mem_pid_iff_find_isSome, hfind]
    rfl
  have hst1 : lookupPid p (tick t1 snap1 st0).state = some ⟨s0.script_path, t1⟩ := by
    rw [tick_state_lookup, if_pos hmem1, habs0, hfind]
  have hnd1 : ((tick t1 snap1 st0).state.map Prod.fst).Nodup :=
    tick_state_keys_nodup t1 snap1 st0 hnd
  have hfilter : (tick t2 snap2 (tick t1 snap1 st0).state).stops.filter (fun ev => ev.pid == p) =
      [⟨EType.stop, p, s0.script_path, t2, some ((t2 : Int) - (t1 : Int))⟩] := by
    have hrw : (tick t2 snap2 (tick t1 snap1 st0).state).stops =
        (processStops t2 (snap2.map ScriptInfo.pid)
          (processStarts t2 snap2 (tick t1 snap1 st0).state).1).2 := rfl
    rw [hrw, pstops_filter, if_neg hgone,
      ps_filter_keys t2 p snap2 (tick t1 snap1 st0).state hgone,
      filter_key_singleton p (tick t1 snap1 st0).state ⟨s0.script_path, t1⟩ hnd1 hst1]
    rfl
  refine ⟨hfilter, ?_, ?_⟩
  · rw [List.countP_eq_length_filter, hfilter]
    rfl
  · have : (t1 : Int) ≤ (t2 : Int) := Int.ofNat_le.mpr hle
    omega

/-- C5 witness: pid 100 appears at tick 2 and is gone at tick 5. -/
theorem stop_duration_matches_start_gap_witness :
    (([] : MonState).map Prod.fst).Nodup ∧
    lookupPid 100 ([] : MonState) = none ∧
    [ScriptInfo.mk 100 "/jobs/crawler.py"].find? (fun s => s.pid == 100) =
      some (ScriptInfo.mk 100 "/jobs/crawler.py") ∧
    (100 : Nat) ∉ ([] : List ScriptInfo).map ScriptInfo.pid ∧
    (2 : Nat) ≤ 5 ∧
    ((tick 5 [] (tick 2 [ScriptInfo.mk 100 "/jobs/crawler.py"] []).state).stops.filter
        (fun ev => ev.pid == 100) =
      [⟨EType.stop, 100, "/jobs/crawler.py", 5, some ((5 : Int) - (2 : Int))⟩] ∧
      (tick 5 [] (tick 2 [ScriptInfo.mk 100 "/jobs/crawler.py"] []).state).stops.countP
        (fun ev => ev.pid == 100) = 1 ∧
      0 ≤ (5 : Int) - (2 : Int)) :=
  ⟨by decide, by decide, by decide, by decide, by decide,
    stop_duration_matches_start_gap 2 5 100 [ScriptInfo.mk 100 "/jobs/crawler.py"] [] []
      (ScriptInfo.mk 100 "/jobs/crawler.py") (by decide) (by decide) (by decide) (by decide)
      (by decide)⟩

/-- C9: an iteration that raises an unexpected exception produces exactly
one critical alert and the 60-second cooldown sleep, after which the loop
continues with the remaining iterations unchanged (the process does not
crash); and the loop exits exactly when an iteration raises the external
stop signal (`KeyboardInterrupt`). -/
theorem critical_error_one_alert_cooldown_resume :
    (∀ rest : List TickOutcome,
      monitorLoop (TickOutcome.raised :: rest) =
        (⟨1, 60⟩ :: (monitorLoop rest).1, (monitorLoop rest).2)) ∧
    (∀ ts : List TickOutcome, (monitorLoop ts).2 = true ↔ TickOutcome.interrupt ∈ ts) := by
  constructor
  · intro rest
    rfl
  · intro ts
    induction ts with
    | nil => simp [monitorLoop]
    | cons t rest ih =>
      cases t <;> simp [monitorLoop, ih]

/-- C2: `check_system_resources` under total metric-source failure returns
the empty dict rather than raising, but the claim that this never blocks
the tick's event delivery fails: with one newly started script (pid 100)
and one pending stop (pid 55), the tick body raises `KeyError` on
`resources["drives"]` before any sink call, so neither the Start nor the
pending Stop of that tick is dispatched. -/
theorem probe_failure_blocks_dispatch_bug :
    check_system_resources true 0 0 [] = Resources.empty ∧
    monitorTickDispatch 9 Resources.empty [⟨100, "/x.py"⟩] [(55, ⟨"/old.py", 2⟩)] =
      Except.error "KeyError: drives" ∧
    monitorTickDispatch 9 (Resources.ok 12 34 [("C:", 50)]) [⟨100, "/x.py"⟩] [(55, ⟨"/old.py", 2⟩)] =
      Except.ok ([(100, ⟨"/x.py", 9⟩)],
        [Dispatch.alertStart 100 "/x.py", Dispatch.logStart 100 "/x.py" 9,
         Dispatch.alertStop 55 "/old.py", Dispatch.logEnd 55 "/old.py" 9]) := by
  refine ⟨rfl, rfl, ?_⟩
  decide

/-- C8: the end record is persisted with UPDATE-not-INSERT semantics, but
the correlation key is not the pid: the monitor passes the string form of
the tracked entry dict as the `pid` argument (src/server.py lines 201 and
215), so the pid column of the start row holds that dict string, never the
OS pid `100`; a row whose pid column were the OS pid would not be matched
by the end call. The scenario: pid 100 runs `/jobs/crawler.py` from tick 5
and stops at tick 9. -/
theorem stop_persist_pid_column_bug :
    log_script_event "start" "1.2.3.4" (entryRepr ⟨"/jobs/crawler.py", 5⟩) "/jobs/crawler.py" 5
        "res0" [] =
      [⟨"start", "1.2.3.4", entryRepr ⟨"/jobs/crawler.py", 5⟩, "/jobs/crawler.py", 5, none,
        "res0"⟩] ∧
    log_script_event "end" "1.2.3.4" (entryRepr ⟨"/jobs/crawler.py", 5⟩) "/jobs/crawler.py" 9
        "res1"
        [⟨"start", "1.2.3.4", entryRepr ⟨"/jobs/crawler.py", 5⟩, "/jobs/crawler.py", 5, none,
          "res0"⟩] =
      [⟨"end", "1.2.3.4", entryRepr ⟨"/jobs/crawler.py", 5⟩, "/jobs/crawler.py", 5, some 9,
        "res1"⟩] ∧
    entryRepr ⟨"/jobs/crawler.py", 5⟩ ≠ "100" ∧
    log_script_event "end" "1.2.3.4" (entryRepr ⟨"/jobs/crawler.py", 5⟩) "/jobs/crawler.py" 9
        "res1" [⟨"start", "1.2.3.4", "100", "/jobs/crawler.py", 5, none, "res0"⟩] =
      [⟨"start", "1.2.3.4", "100", "/jobs/crawler.py", 5, none, "res0"⟩] := by
  refine ⟨by decide, by decide, by decide, by decide⟩

/-- C10: a Scrapy-style command line in which no token follows the first
`crawl` resolves to `None` (the caught `IndexError`), even when an
absolute `.py` token is present that the direct-file rule would return. -/
theorem crawl_final_token_unresolved (fs : FS) (cmdline cwd : List String)
    (hm : "-m" ∈ cmdline ∧ "scrapy" ∈ cmdline ∧ "crawl" ∈ cmdline)
    (hlast : cmdline.get? (cmdline.indexOf "crawl" + 1) = none)
    (habs : ∃ a ∈ cmdline, strEndsWith a ".py" = true ∧ isAbs a = true) :
    get_script_path fs cmdline cwd = none := by
  unfold get_script_path
  rw [if_pos hm, hlast]

/-- C10 witness: `python -m scrapy /a/x.py crawl` with `crawl` final. -/
theorem crawl_final_token_unresolved_witness :
    ("-m" ∈ ["python", "-m", "scrapy", "/a/x.py", "crawl"] ∧
      "scrapy" ∈ ["python", "-m", "scrapy", "/a/x.py", "crawl"] ∧
      "crawl" ∈ ["python", "-m", "scrapy", "/a/x.py", "crawl"]) ∧
    ["python", "-m", "scrapy", "/a/x.py", "crawl"].get?
      (["python", "-m", "scrapy", "/a/x.py", "crawl"].indexOf "crawl" + 1) = none ∧
    get_script_path fsEmpty ["python", "-m", "scrapy", "/a/x.py", "crawl"] ["home"] = none :=
  ⟨by decide, by decide,
    crawl_final_token_unresolved fsEmpty ["python", "-m", "scrapy", "/a/x.py", "crawl"] ["home"]
      (by decide) (by decide) ⟨"/a/x.py", by decide, by decide, by decide⟩⟩

/-- C4: a command line matching the Scrapy crawl pattern with a job name
resolves through the framework-job branch: the result is exactly
`scrapyResolve` on the extracted job name, and if it ever equals an
absolute `.py` token of the command line, that value came from the
framework branch, not the direct-file rule. -/
theorem scrapy_branch_precedence (fs : FS) (cmdline cwd : List String) (jn : String)
    (hm : "-m" ∈ cmdline ∧ "scrapy" ∈ cmdline ∧ "crawl" ∈ cmdline)
    (hjob : cmdline.get? (cmdline.indexOf "crawl" + 1) = some jn)
    (habs : ∃ a ∈ cmdline, strEndsWith a ".py" = true ∧ isAbs a = true) :
    get_script_path fs cmdline cwd = scrapyResolve fs cwd jn ∧
    (∀ a ∈ cmdline, strEndsWith a ".py" = true → isAbs a = true →
      get_script_path fs cmdline cwd = some a → scrapyResolve fs cwd jn = some a) := by
  have h : get_script_path fs cmdline cwd = scrapyResolve fs cwd jn := by
    unfold get_script_path
    rw [if_pos hm, hjob]
  exact ⟨h, fun a _ _ _ hres => h ▸ hres⟩

/-- C4 witness: a crawl command also carrying an absolute .py token. -/
theorem scrapy_branch_precedence_witness :
    ("-m" ∈ ["python", "-m", "scrapy", "crawl", "news", "/abs/job.py"] ∧
      "scrapy" ∈ ["python", "-m", "scrapy", "crawl", "news", "/abs/job.py"] ∧
      "crawl" ∈ ["python", "-m", "scrapy", "crawl", "news", "/abs/job.py"]) ∧
    ["python", "-m", "scrapy", "crawl", "news", "/abs/job.py"].get?
      (["python", "-m", "scrapy", "crawl", "news", "/abs/job.py"].indexOf "crawl" + 1) =
      some "news" ∧
    get_script_path fsEmpty ["python", "-m", "scrapy", "crawl", "news", "/abs/job.py"] ["home"] =
      scrapyResolve fsEmpty ["home"] "news" :=
  ⟨by decide, by decide,
    (scrapy_branch_precedence fsEmpty ["python", "-m", "scrapy", "crawl", "news", "/abs/job.py"]
      ["home"] "news" (by decide) (by decide)
      ⟨"/abs/job.py", by decide, by decide, by decide⟩).1⟩

theorem findRootAux_none (fs : FS) : ∀ rdir : List String,
    (∀ n : Nat, fs.hasCfg (rdir.reverse.take n) = false) → findRootAux fs rdir = none
  | [], h => by simpa [findRootAux] using h 0
  | c :: rest, h => by
    have hhead : fs.hasCfg ((c :: rest).reverse) = false := by
      have h2 := h ((c :: rest).reverse.length)
      rwa [List.take_length] at h2
    have hrest : ∀ n : Nat, fs.hasCfg (rest.reverse.take n) = false := by
      intro n
      rcases le_or_lt n rest.reverse.length with hle | hlt
      · have h2 := h n
        rwa [List.reverse_cons, List.take_append_of_le_length hle] at h2
      · have h2 := h rest.reverse.length
        rw [List.reverse_cons, List.take_left] at h2
        rwa [List.take_of_length_le (Nat.le_of_lt hlt)]
    rw [List.reverse_cons] at hhead
    simp [findRootAux, hhead, findRootAux_none fs rest hrest]

theorem find_root_none (fs : FS) (cwd : List String)
    (h : ∀ n : Nat, fs.hasCfg (cwd.take n) = false) :
    find_scrapy_project_root fs cwd = none := by
  apply findRootAux_none
  intro n
  rw [List.reverse_reverse]
  exact h n

/-- C7: when no directory on the path from `cwd` up to the filesystem root
contains `scrapy.cfg` (the prefixes `cwd.take n` are exactly those
directories), the upward walk terminates at the root with `none` and the
resolver returns the descriptive "Project root not found" identity string
instead of raising. -/
theorem project_root_not_found_identity (fs : FS) (cmdline cwd : List String) (jn : String)
    (hm : "-m" ∈ cmdline ∧ "scrapy" ∈ cmdline ∧ "crawl" ∈ cmdline)
    (hjob : cmdline.get? (cmdline.indexOf "crawl" + 1) = some jn)
    (hnone : ∀ n : Nat, fs.hasCfg (cwd.take n) = false) :
    find_scrapy_project_root fs cwd = none ∧
    get_script_path fs cmdline cwd = some ("Spider: " ++ jn ++ " (Project root not found)") := by
  have hroot := find_root_none fs cwd hnone
  refine ⟨hroot, ?_⟩
  unfold get_script_path
  rw [if_pos hm, hjob]
  unfold scrapyResolve
  rw [hroot]

/-- C7 witness: `python -m scrapy crawl news` from `/home/user/proj` on a
filesystem with no `scrapy.cfg` anywhere. -/
theorem project_root_not_found_identity_witness :
    find_scrapy_project_root fsEmpty ["home", "user", "proj"] = none ∧
    get_script_path fsEmpty ["python", "-m", "scrapy", "crawl", "news"] ["home", "user", "proj"] =
      some ("Spider: " ++ "news" ++ " (Project root not found)") :=
  project_root_not_found_identity fsEmpty ["python", "-m", "scrapy", "crawl", "news"]
    ["home", "user", "proj"] "news" (by decide) (by decide) (fun n => rfl)

theorem ne_interactive_of_head (s : String) (c : Char) (hhead : s.data.head? = some c)
    (hc : c ≠ '<') : s ≠ "<interactive>" := by
  intro he
  rw [he] at hhead
  have h2 : ("<interactive>".data.head?) = some '<' := rfl
  rw [h2] at hhead
  exact hc (Option.some.inj hhead).symm

theorem spider_str_head (n : String) :
    ("Spider: " ++ n ++ " (Project root not found)").data.head? = some 'S' := by
  rw [String.data_append, String.data_append]
  rfl

theorem notfound_str_head (r : String) : ("Not found in " ++ r).data.head? = some 'N' := by
  rw [String.data_append]
  rfl

theorem pathStr_head (p : List String) : (pathStr p).data.head? = some '/' := by
  unfold pathStr
  rw [String.data_append]
  rfl

theorem joinPath_head (cwd : List String) (a : String) :
    (joinPath cwd a).data.head? = some '/' := by
  unfold joinPath pathStr
  rw [String.data_append, String.data_append, String.data_append]
  rfl

theorem scrapyResolve_ne_interactive (fs : FS) (cwd : List String) (sn : String) :
    scrapyResolve fs cwd sn ≠ some "<interactive>" := by
  intro h
  unfold scrapyResolve at h
  cases hroot : find_scrapy_project_root fs cwd with
  | none =>
    simp only [hroot] at h
    exact ne_interactive_of_head _ 'S' (spider_str_head sn) (by decide) (Option.some.inj h)
  | some root =>
    simp only [hroot] at h
    cases hspider : fs.findSpider root sn with
    | some f =>
      rw [hspider] at h
      exact ne_interactive_of_head _ '/' (pathStr_head f) (by decide) (Option.some.inj h)
    | none =>
      rw [hspider] at h
      exact ne_interactive_of_head _ 'N' (notfound_str_head (pathStr root)) (by decide)
        (Option.some.inj h)

theorem implicitScriptRule_head (cwd : List String) (cmdline : List String) (r : String)
    (h : implicitScriptRule cwd cmdline = some r) : r.data.head? = some '/' := by
  cases cmdline with
  | nil => exact absurd h (by simp [implicitScriptRule])
  | cons c0 t =>
    cases t with
    | nil => exact absurd h (by simp [implicitScriptRule])
    | cons c1 rest =>
      by_cases hc : (strEndsWith c0 "python" && strEndsWith c1 ".py") = true
      · simp only [implicitScriptRule, if_pos hc] at h
        obtain rfl := Option.some.inj h
        exact joinPath_head cwd c1
      · simp only [implicitScriptRule, if_neg hc] at h
        exact Option.noConfusion h

/-- C3 counterexample: the command line `["foo", "a.py"]` contains no
resolvable path token (its `.py` token is relative and the first token is
not a `python` interpreter), yet the resolver returns the unresolved
marker `none`, not the `<interactive>` marker the claim requires. -/
theorem interactive_marker_claim_counterexample :
    ¬ resolvablePathToken ["home"] ["foo", "a.py"] ∧
    get_script_path fsEmpty ["foo", "a.py"] ["home"] ≠ some "<interactive>" ∧
    get_script_path fsEmpty ["foo", "a.py"] ["home"] = none := by
  decide

/-- C3 amended: the resolver returns the `<interactive>` marker exactly
when the command line is not a Scrapy crawl invocation, contains no
resolvable path token (direct-file or implicit-script rule), and either
the `-i` flag is present or no token ends in `.py`. -/
theorem interactive_marker_iff (fs : FS) (cmdline cwd : List String) :
    get_script_path fs cmdline cwd = some "<interactive>" ↔
      ¬ ("-m" ∈ cmdline ∧ "scrapy" ∈ cmdline ∧ "crawl" ∈ cmdline) ∧
      ¬ resolvablePathToken cwd cmdline ∧
      ("-i" ∈ cmdline ∨ cmdline.any (fun a => strEndsWith a ".py") = false) := by
  unfold get_script_path
  by_cases hm : "-m" ∈ cmdline ∧ "scrapy" ∈ cmdline ∧ "crawl" ∈ cmdline
  · rw [if_pos hm]
    constructor
    · intro h
      exfalso
      cases hget : cmdline.get? (cmdline.indexOf "crawl" + 1) with
      | none => rw [hget] at h; exact Option.noConfusion h
      | some sn => rw [hget] at h; exact scrapyResolve_ne_interactive fs cwd sn h
    · rintro ⟨hns, _⟩
      exact absurd hm hns
  · rw [if_neg hm]
    cases hfind : cmdline.find? (fun a => strEndsWith a ".py" && isAbs a) with
    | some arg =>
      constructor
      · intro h
        have harg := Option.some.inj h
        have hpred := List.find?_some hfind
        rw [harg] at hpred
        exact absurd hpred (by decide)
      · rintro ⟨_, hno, _⟩
        exfalso
        apply hno
        left
        have hpred := List.find?_some hfind
        simp only [Bool.and_eq_true] at hpred
        exact ⟨arg, List.mem_of_find?_eq_some hfind, hpred.1, hpred.2⟩
    | none =>
      cases himp : implicitScriptRule cwd cmdline with
      | some r =>
        constructor
        · intro h
          have hr := Option.some.inj h
          have hhead := implicitScriptRule_head cwd cmdline r himp
          exact absurd hr (ne_interactive_of_head r '/' hhead (by decide))
        · rintro ⟨_, hno, _⟩
          exact absurd (Or.inr (by rw [himp]; rfl)) hno
      | none =>
        by_cases hint : ("-i" ∈ cmdline ∨ cmdline.any (fun a => strEndsWith a ".py") = false)
        · rw [if_pos hint]
          constructor
          · intro _
            refine ⟨hm, ?_, hint⟩
            rintro (⟨a, hmem, h1, h2⟩ | hsome)
            · have hnp := List.find?_eq_none.mp hfind a hmem
              simp only [Bool.and_eq_true] at hnp
              exact hnp ⟨h1, h2⟩
            · rw [himp] at hsome
              exact Option.noConfusion (Option.isSome_iff_exists.mp hsome).choose_spec
          · intro _
            rfl
        · rw [if_neg hint]
          constructor
          · intro h
            exact Option.noConfusion h
          · rintro ⟨_, _, hi⟩
            exact absurd hi hint
